import Mathlib

/-!
# Verification of the `git-remote-min` remote helper

A shallow embedding of `src/git-remote-min/index.js` (the "robust push
(self-pack)" version of the min:// Git remote helper) and proofs about its
protocol behaviour.

Modelling conventions:

* External effects (HTTP requests, git subprocesses, filesystem writes,
  stdout protocol lines, stderr diagnostics) are recorded in an explicit
  trace of `Event`s, in the order the code performs them.
* The outcomes of external calls (HTTP responses, child-process exits and
  captured stdout, `Date.now()` values, directory existence) are supplied by
  an `Env` oracle, so every behaviour of the environment is quantified over.
* A JavaScript exception that escapes a handler (there is no `try`/`catch`
  around `handleList`/`handleFetch` in the `rl.on("line")` dispatcher)
  aborts the handler: the trace simply stops at the throwing call and the
  session state is left as it was at that point.
* JS `Map` is modelled as an association list with overwrite-on-set
  (`mapSet`) and key lookup (`mapGet`).
* JS string falsiness (`if (!x)` succeeding for `undefined` and `""`) is
  modelled by `truthy : Option String → Option String`.
* Byte buffers are opaque and modelled as `String`.
* `DEBUG`-gated `log`/stderr diagnostics are omitted; the non-gated
  `stderr.write` in the push error path is kept as an `errLine` event.
-/

namespace GitRemoteMin

/-- A ref entry of the remote's `GET /repos/{repo}/refs` JSON response:
`{name, oid, packId?}`.  `packId = none` models an absent field. -/
structure RefEntry where
  name : String
  oid : String
  packId : Option String
deriving Repr, DecidableEq

/-- A pending push parsed from a `push <src>:<dst>` line.
`dst = none` models the JS `undefined` that results from a line with no
colon (`const [src, dst] = (parts[1] || "").split(":")`). -/
structure PendingPush where
  src : String
  dst : Option String
deriving Repr, DecidableEq

/-- One entry of the `POST /repos/{repo}/updateRefs` request body:
`{ name: dst, oldOid: "", newOid, packId }` as built in
`handlePushSelfPack`.  `name = none` models the `undefined` property that
`JSON.stringify` would drop. -/
structure RefUpdate where
  name : Option String
  oldOid : String
  newOid : String
  packId : String
deriving Repr, DecidableEq

/-- The JSON body of the `POST /repos/{repo}/packs` response: the code reads
`up.packId` and also stringifies the whole value into an error message
(`raw` stands for that stringified form). -/
structure UploadResp where
  packId : Option String
  raw : String
deriving Repr, DecidableEq

/-- The remote HTTP requests the helper can issue, by endpoint and payload.
`delta` is the base-negotiation query of the spec's HTTP surface
(`GET /repos/{repo}/delta?ref=&base=`); it is listed so that its absence
from every trace of this code can be stated, the code never issues it. -/
inductive Request where
  | refs : Request
  | delta (ref : String) (base : String) : Request
  | pack (packId : String) : Request
  | packsUpload : Request
  | updateRefs (updates : List RefUpdate) : Request
deriving Repr, DecidableEq

/-- An observable external effect, in program order. -/
inductive Event where
  | httpReq (method : String) (req : Request) : Event
  | gitRun (args : List String) : Event
  | mkdir (path : String) : Event
  | fsWrite (path : String) : Event
  | outLine (line : String) : Event
  | errLine (line : String) : Event
deriving Repr, DecidableEq

/-- Oracle for every external outcome one run of the helper can observe. -/
structure Env where
  /-- `GET /repos/{repo}/refs` : either a transport/parse error or the
  parsed `j.refs || []` list. -/
  refsResp : Except String (List RefEntry)
  /-- `GET /repos/{repo}/packs/{packId}` : raw pack bytes or an error. -/
  packBytes : String → Except String String
  /-- `git index-pack --keep -v <tmpPack>` : exit 0 or an error. -/
  indexPack : String → Except String Unit
  /-- `git pack-objects --stdout --all` : captured pack bytes or an error. -/
  packObjects : Except String String
  /-- `POST /repos/{repo}/packs` with the pack bytes : parsed JSON reply. -/
  uploadPack : String → Except String UploadResp
  /-- `git rev-parse <src>` : captured stdout or an error. -/
  revParse : String → Except String String
  /-- `POST /repos/{repo}/updateRefs` : success value is only logged. -/
  updateRefs : List RefUpdate → Except String Unit
  /-- The `GIT_DIR` environment variable (default `".git"`). -/
  gitDir : String
  /-- `existsSync(packDir)` at the time of the fetch. -/
  packDirExists : Bool
  /-- `Date.now()` when naming the downloaded `.pack` file. -/
  nowPack : Nat
  /-- `Date.now()` when naming the `.keep` marker file. -/
  nowKeep : Nat

/-- The helper's mutable session state: `refToPackId`, `pendingPushes`,
`readingPushBatch` (module-level `let`s in the source). -/
structure HelperState where
  refToPackId : List (String × String)
  pendingPushes : List PendingPush
  readingPushBatch : Bool
deriving Repr, DecidableEq

/-- State at process start: empty `Map`, empty array, `false`. -/
def initState : HelperState :=
  { refToPackId := [], pendingPushes := [], readingPushBatch := false }

/-- JS `String.prototype.split` with a one-character separator (the code
only splits on `" "` and `":"`): split at every occurrence, keeping empty
pieces, so `"" → [""]`. -/
def splitChar (sep : Char) : List Char → List (List Char)
  | [] => [[]]
  | c :: cs =>
    if c = sep then [] :: splitChar sep cs
    else
      match splitChar sep cs with
      | [] => [[c]]
      | g :: gs => (c :: g) :: gs

/-- `line.split(sep)` for a one-character separator, as strings. -/
def jsSplit (sep : Char) (s : String) : List String :=
  (splitChar sep s.data).map (fun cs => ⟨cs⟩)

/-- JS `String.prototype.trim`: strip whitespace from both ends. -/
def jsTrim (s : String) : String :=
  ⟨((s.data.dropWhile Char.isWhitespace).reverse.dropWhile
      Char.isWhitespace).reverse⟩

/-- JS `Array.prototype.join(sep)`. -/
def jsJoin (sep : String) : List String → String
  | [] => ""
  | [s] => s
  | s :: rest => s ++ sep ++ jsJoin sep rest

/-- JS `Map.prototype.set`: overwrite the binding for `k`. -/
def mapSet (m : List (String × String)) (k v : String) : List (String × String) :=
  m.filter (fun e => !(e.1 == k)) ++ [(k, v)]

/-- JS `Map.prototype.get`: the value bound to `k`, if any. -/
def mapGet (m : List (String × String)) (k : String) : Option String :=
  (m.find? (fun e => e.1 == k)).map (fun e => e.2)

/-- JS truthiness of `undefined | string`: `undefined` and `""` are falsy. -/
def truthy : Option String → Option String
  | none => none
  | some s => if s = "" then none else some s

/-- `join(GIT_DIR, "objects", "pack")`. -/
def packDir (env : Env) : String :=
  env.gitDir ++ "/objects/pack"

/-- `join(packDir, "min-fetch-" + Date.now() + ".pack")`. -/
def tmpPackPath (env : Env) : String :=
  packDir env ++ "/min-fetch-" ++ toString env.nowPack ++ ".pack"

/-- `join(packDir, "min-helper-" + Date.now() + ".keep")`. -/
def keepPath (env : Env) : String :=
  packDir env ++ "/min-helper-" ++ toString env.nowKeep ++ ".keep"

/-- One iteration of the `for (const r of (j.refs || []))` loop of
`handleList`, as far as the catalog is concerned: record a truthy
`r.packId` under `r.name`, else leave the catalog alone. -/
def catalogStep (m : List (String × String)) (r : RefEntry) :
    List (String × String) :=
  match truthy r.packId with
  | some p => mapSet m r.name p
  | none => m

/-- `handleList`: `GET /refs`, then clear `refToPackId` and, per ref, print
`<oid> <name>` and record a truthy `packId`; finally a blank line.  On a
transport error the exception escapes before `refToPackId.clear()`, so the
state is unchanged and nothing is printed. -/
def handleList (env : Env) (st : HelperState) : HelperState × List Event :=
  match env.refsResp with
  | .error _ => (st, [.httpReq "GET" .refs])
  | .ok refs =>
    ({ st with refToPackId := refs.foldl catalogStep [] },
      .httpReq "GET" .refs ::
        refs.map (fun r => .outLine (r.oid ++ " " ++ r.name)) ++ [.outLine ""])

/-- `handleFetch(refname)`: if no truthy `packId` is recorded for the ref,
just print the blank terminator.  Otherwise download the pack (an HTTP error
escapes with no further output), ensure the pack directory, write the
`.pack` file, run `git index-pack --keep -v` (a nonzero exit escapes with no
further output), then write the `.keep` marker, print `lock <path>` and the
blank terminator.  `refToPackId` is only read, never written. -/
def handleFetch (env : Env) (refToPackId : List (String × String))
    (refname : String) : List Event :=
  match truthy (mapGet refToPackId refname) with
  | none => [.outLine ""]
  | some packId =>
    .httpReq "GET" (.pack packId) ::
      match env.packBytes packId with
      | .error _ => []
      | .ok _ =>
        (if env.packDirExists then [] else [.mkdir (packDir env)]) ++
          .fsWrite (tmpPackPath env) ::
            .gitRun ["index-pack", "--keep", "-v", tmpPackPath env] ::
              match env.indexPack (tmpPackPath env) with
              | .error _ => []
              | .ok _ =>
                [.fsWrite (keepPath env),
                  .outLine ("lock " ++ keepPath env),
                  .outLine ""]

/-- The stdout protocol lines of a trace, in order. -/
def outLines (tr : List Event) : List String :=
  tr.filterMap (fun e =>
    match e with
    | .outLine s => some s
    | _ => none)

/-- The HTTP requests of a trace, in order. -/
def httpReqs (tr : List Event) : List (String × Request) :=
  tr.filterMap (fun e =>
    match e with
    | .httpReq m r => some (m, r)
    | _ => none)

/-- The paths named by `lock <path>` protocol lines of a trace, in order. -/
def lockLines (tr : List Event) : List String :=
  tr.filterMap (fun e =>
    match e with
    | .outLine s =>
      if s.data.take 5 = "lock ".data then some ⟨s.data.drop 5⟩ else none
    | _ => none)

/-- Whether an event is a pack-download request (`GET /packs/{id}`). -/
def isPackDownload : Event → Bool
  | .httpReq _ (.pack _) => true
  | _ => false

/-- Whether an event is a base-negotiation query (`GET /delta?...`).
The code never issues one. -/
def isDeltaReq : Event → Bool
  | .httpReq _ (.delta _ _) => true
  | _ => false

/-- Whether an event is the combined ref-update request (`POST /updateRefs`). -/
def isUpdateReq : Event → Bool
  | .httpReq _ (.updateRefs _) => true
  | _ => false

/-- The payloads of `POST /updateRefs` requests in a trace, in order. -/
def updatePayloads (tr : List Event) : List (List RefUpdate) :=
  tr.filterMap (fun e =>
    match e with
    | .httpReq _ (.updateRefs us) => some us
    | _ => none)

/-- The `for (const { src, dst } of pendingPushes)` loop of step 3 of
`handlePushSelfPack`: resolve each `newOid` with `git rev-parse <src>`,
throwing on a nonzero exit or an empty (falsy) trimmed result, and build
the `updates` array with `oldOid: ""` and the uploaded `packId`. -/
def resolveUpdates (env : Env) (packId : String) :
    List PendingPush → List Event × Except String (List RefUpdate)
  | [] => ([], .ok [])
  | p :: rest =>
    match env.revParse p.src with
    | .error e => ([Event.gitRun ["rev-parse", p.src]], .error e)
    | .ok captured =>
      if jsTrim captured = "" then
        ([Event.gitRun ["rev-parse", p.src]],
          .error ("rev-parse failed for " ++ p.src))
      else
        (Event.gitRun ["rev-parse", p.src] ::
            (resolveUpdates env packId rest).1,
          (resolveUpdates env packId rest).2.map
            (fun us => ⟨p.dst, "", jsTrim captured, packId⟩ :: us))

/-- `handlePushSelfPack`: (1) self-generate a full pack with
`git pack-objects --stdout --all`; (2) `POST /packs` and require a truthy
`up.packId`; (3) resolve every pending push's `newOid` and build the
`updates` array with `oldOid: ""`; then `POST /updateRefs`.  Any failure
throws; the trace records how far the run got, the `Except` is the thrown
message (caught by the batch terminator handler). -/
def handlePushSelfPack (env : Env) (pendingPushes : List PendingPush) :
    List Event × Except String Unit :=
  let gp := Event.gitRun ["pack-objects", "--stdout", "--all"]
  match env.packObjects with
  | .error e => ([gp], .error e)
  | .ok packBuf =>
    let up := Event.httpReq "POST" .packsUpload
    match env.uploadPack packBuf with
    | .error e => ([gp, up], .error e)
    | .ok resp =>
      match truthy resp.packId with
      | none =>
        ([gp, up], .error ("upload /packs returned no packId: " ++ resp.raw))
      | some packId =>
        match (resolveUpdates env packId pendingPushes).2 with
        | .error e =>
          (gp :: up :: (resolveUpdates env packId pendingPushes).1, .error e)
        | .ok updates =>
          let uq := Event.httpReq "POST" (.updateRefs updates)
          match env.updateRefs updates with
          | .error e =>
            (gp :: up :: (resolveUpdates env packId pendingPushes).1 ++ [uq],
              .error e)
          | .ok _ =>
            (gp :: up :: (resolveUpdates env packId pendingPushes).1 ++ [uq],
              .ok ())

/-- The string interpolation of a possibly-`undefined` `dst`. -/
def dstStr (p : PendingPush) : String :=
  match p.dst with
  | some d => d
  | none => "undefined"

/-- `e.message.replace(/"/g, '\\"')`: each `"` becomes `\"`. -/
def escapeChars : List Char → List Char
  | [] => []
  | c :: cs =>
    if c = '"' then '\\' :: '"' :: escapeChars cs else c :: escapeChars cs

/-- `e.message.replace(/"/g, '\\"')`. -/
def escapeMsg (e : String) : String :=
  ⟨escapeChars e.data⟩

/-- The `ok <dst>` status line of a successful batch. -/
def okLine (p : PendingPush) : String :=
  "ok " ++ dstStr p

/-- The `error <dst> "<msg>"` status line of a failed batch. -/
def errorLine (e : String) (p : PendingPush) : String :=
  "error " ++ dstStr p ++ " \"" ++ escapeMsg e ++ "\""

/-- The blank-line branch of the `rl.on("line")` dispatcher: outside a push
batch it does nothing; as a batch terminator it clears `readingPushBatch`,
runs `handlePushSelfPack`, prints one `ok <dst>` per pending push on
success, or a stderr diagnostic and one `error <dst> "<msg>"` per pending
push on failure, then the blank line, and finally clears `pendingPushes`. -/
def stepBlank (env : Env) (st : HelperState) : HelperState × List Event :=
  if st.readingPushBatch then
    match (handlePushSelfPack env st.pendingPushes).2 with
    | .ok _ =>
      ({ st with readingPushBatch := false, pendingPushes := [] },
        (handlePushSelfPack env st.pendingPushes).1 ++
          st.pendingPushes.map (fun p => .outLine (okLine p)) ++ [.outLine ""])
    | .error e =>
      ({ st with readingPushBatch := false, pendingPushes := [] },
        (handlePushSelfPack env st.pendingPushes).1 ++
          .errLine ("[push] failed: " ++ e) ::
            st.pendingPushes.map (fun p => .outLine (errorLine e p)) ++
              [.outLine ""])
  else (st, [])

/-- One iteration of the `rl.on("line")` dispatcher: blank-line handling,
then `parts = line.trim().split(" ")` and the `switch` on `parts[0]`
(`capabilities`, `option`, `list`, `fetch`, `push`, default: ignore). -/
def step (env : Env) (st : HelperState) (line : String) : HelperState × List Event :=
  if line = "" then stepBlank env st
  else
    let parts := jsSplit ' ' (jsTrim line)
    let cmd := parts.headD ""
    match cmd with
    | "capabilities" =>
      (st, [.outLine "option", .outLine "fetch", .outLine "push", .outLine ""])
    | "option" => (st, [.outLine "ok"])
    | "list" => handleList env st
    | "fetch" =>
      let refname := jsJoin " " (parts.drop 2)
      (st, handleFetch env st.refToPackId refname)
    | "push" =>
      let ps := jsSplit ':' ((parts.get? 1).getD "")
      let src := ps.headD ""
      let dst := ps.get? 1
      ({ st with
          pendingPushes := st.pendingPushes ++ [⟨src, dst⟩],
          readingPushBatch := true }, [])
    | _ => (st, [])

/-- Feed a sequence of input lines through the dispatcher, collecting the
combined trace. -/
def runLines (env : Env) (st : HelperState) (lines : List String) :
    HelperState × List Event :=
  lines.foldl
    (fun acc l =>
      let (st', tr') := step env acc.1 l
      (st', acc.2 ++ tr'))
    (st, [])

/-- The number of pack-download requests (`GET /packs/{id}`) in a trace. -/
def packDownloads (tr : List Event) : Nat :=
  tr.countP (fun e => isPackDownload e)

/-- Whether the run of `handleFetch` for `refname` downloads a pack: a
truthy `packId` is recorded and the `GET /packs/{packId}` call returns
bytes (rather than throwing). -/
def fetchDownloadOk (env : Env) (refToPackId : List (String × String))
    (refname : String) : Bool :=
  match truthy (mapGet refToPackId refname) with
  | none => false
  | some packId =>
    match env.packBytes packId with
    | .ok _ => true
    | .error _ => false

/-- Modelled from the spec: the antecedent "a ref that is already at the
locally-known tip" of the idempotent-fetch property.  `localTip` is the
object id of the local remote-tracking ref, `remoteOid` the oid the remote
reported for the ref at the last `list`.  `handleFetch` in the source takes
no such inputs — it never consults the local tip — so the scenario is a
ghost parameter of statements about up-to-date fetches. -/
structure FetchScenario where
  localTip : Option String
  remoteOid : String
deriving Repr, DecidableEq

/-- Modelled from the spec: the fetched ref is already at the locally-known
tip. -/
def upToDate (sc : FetchScenario) : Prop :=
  sc.localTip = some sc.remoteOid

/-- `git rev-parse <src>` resolves the pending push `p` to a usable
(nonempty after trim) object id. -/
def resolvesOk (env : Env) (p : PendingPush) : Prop :=
  ∃ s, env.revParse p.src = .ok s ∧ jsTrim s ≠ ""

/-- The update entry `handlePushSelfPack` builds for a pending push whose
resolution succeeded: `{ name: dst, oldOid: "", newOid, packId }`. -/
def mkUpdate (env : Env) (packId : String) (p : PendingPush) : RefUpdate :=
  ⟨p.dst, "", jsTrim ((env.revParse p.src).toOption.getD ""), packId⟩

/-- An environment in which every external call succeeds: the remote lists
one ref `refs/heads/main` at tip `aaa` covered by pack `p1`, uploads are
assigned pack id `p9`, and `git rev-parse` always resolves to `bbb`. -/
def envAllOk : Env where
  refsResp := .ok [⟨"refs/heads/main", "aaa", some "p1"⟩]
  packBytes := fun _ => .ok "PACKBYTES"
  indexPack := fun _ => .ok ()
  packObjects := .ok "PACKDATA"
  uploadPack := fun _ => .ok ⟨some "p9", "json packId p9"⟩
  revParse := fun _ => .ok "bbb\n"
  updateRefs := fun _ => .ok ()
  gitDir := ".git"
  packDirExists := true
  nowPack := 5
  nowKeep := 6

/-- `envAllOk`, except that downloading any pack fails with an HTTP error. -/
def envFetchFail : Env :=
  { envAllOk with packBytes := fun _ => .error "HTTP 500 GET /repos/r/packs/p1" }

/-- `envAllOk`, except that `git index-pack` exits nonzero. -/
def envImportFail : Env :=
  { envAllOk with indexPack := fun _ => .error "git index-pack exited 128" }

/-- `envAllOk`, except that `git rev-parse` exits nonzero. -/
def envRevFail : Env :=
  { envAllOk with revParse := fun _ => .error "git rev-parse exited 128" }

/-- `envAllOk`, except that the remote rejects the combined `updateRefs`
request (for example because a supplied guard is stale). -/
def envUpdateRejected : Env :=
  { envAllOk with updateRefs := fun _ => .error "HTTP 409 POST updateRefs" }

theorem outLines_append (a b : List Event) :
    outLines (a ++ b) = outLines a ++ outLines b :=
  List.filterMap_append a b _

theorem resolveUpdates_events (env : Env) (packId : String) :
    ∀ ps : List PendingPush, ∀ e ∈ (resolveUpdates env packId ps).1,
      ∃ s, e = .gitRun ["rev-parse", s] := by
  intro ps
  induction ps with
  | nil => intro e he; simp [resolveUpdates] at he
  | cons p rest ih =>
    intro e he
    cases h : env.revParse p.src with
    | error msg =>
      simp only [resolveUpdates, h] at he
      simp only [List.mem_singleton] at he
      exact ⟨p.src, he⟩
    | ok captured =>
      by_cases hc : jsTrim captured = ""
      · simp only [resolveUpdates, h, if_pos hc] at he
        simp only [List.mem_singleton] at he
        exact ⟨p.src, he⟩
      · simp only [resolveUpdates, h, if_neg hc] at he
        rcases List.mem_cons.mp he with h1 | h2
        · exact ⟨p.src, h1⟩
        · exact ih e h2

theorem resolveUpdates_no_out (env : Env) (packId : String)
    (ps : List PendingPush) : outLines (resolveUpdates env packId ps).1 = [] := by
  rw [List.eq_nil_iff_forall_not_mem]
  intro x hx
  simp only [outLines, List.mem_filterMap] at hx
  obtain ⟨e, he, hex⟩ := hx
  obtain ⟨s, rfl⟩ := resolveUpdates_events env packId ps e he
  simp at hex

theorem handlePush_packObjects_err (env : Env) (ps : List PendingPush)
    (e : String) (h : env.packObjects = .error e) :
    handlePushSelfPack env ps =
      ([.gitRun ["pack-objects", "--stdout", "--all"]], .error e) := by
  simp only [handlePushSelfPack, h]

theorem handlePush_upload_err (env : Env) (ps : List PendingPush)
    (buf e : String) (h1 : env.packObjects = .ok buf)
    (h2 : env.uploadPack buf = .error e) :
    handlePushSelfPack env ps =
      ([.gitRun ["pack-objects", "--stdout", "--all"],
        .httpReq "POST" .packsUpload], .error e) := by
  simp only [handlePushSelfPack, h1, h2]

theorem handlePush_no_packId (env : Env) (ps : List PendingPush)
    (buf : String) (resp : UploadResp) (h1 : env.packObjects = .ok buf)
    (h2 : env.uploadPack buf = .ok resp) (h3 : truthy resp.packId = none) :
    handlePushSelfPack env ps =
      ([.gitRun ["pack-objects", "--stdout", "--all"],
        .httpReq "POST" .packsUpload],
        .error ("upload /packs returned no packId: " ++ resp.raw)) := by
  simp only [handlePushSelfPack, h1, h2, h3]

theorem handlePush_resolve_err (env : Env) (ps : List PendingPush)
    (buf : String) (resp : UploadResp) (packId e : String)
    (h1 : env.packObjects = .ok buf) (h2 : env.uploadPack buf = .ok resp)
    (h3 : truthy resp.packId = some packId)
    (h4 : (resolveUpdates env packId ps).2 = .error e) :
    handlePushSelfPack env ps =
      (Event.gitRun ["pack-objects", "--stdout", "--all"] ::
        Event.httpReq "POST" .packsUpload ::
          (resolveUpdates env packId ps).1, .error e) := by
  simp only [handlePushSelfPack, h1, h2, h3, h4]

theorem resolveUpdates_ok (env : Env) (packId : String)
    (ps : List PendingPush) (h : ∀ p ∈ ps, resolvesOk env p) :
    resolveUpdates env packId ps =
      (ps.map (fun p => .gitRun ["rev-parse", p.src]),
        .ok (ps.map (mkUpdate env packId))) := by
  induction ps with
  | nil => rfl
  | cons p rest ih =>
    obtain ⟨s, hs, hne⟩ := h p (List.mem_cons_self p rest)
    have hrest := ih (fun q hq => h q (List.mem_cons_of_mem p hq))
    simp only [resolveUpdates, hs, if_neg hne, hrest, List.map_cons,
      Except.map, mkUpdate, Except.toOption, Option.getD]

theorem resolveUpdates_ok_inv (env : Env) (packId : String) :
    ∀ (ps : List PendingPush) (us : List RefUpdate),
      (resolveUpdates env packId ps).2 = .ok us → ∀ p ∈ ps, resolvesOk env p := by
  intro ps
  induction ps with
  | nil => intro us _ p hp; simp at hp
  | cons p rest ih =>
    intro us hok q hq
    cases h : env.revParse p.src with
    | error msg =>
      simp only [resolveUpdates, h] at hok
      exact Except.noConfusion hok
    | ok captured =>
      by_cases hc : jsTrim captured = ""
      · simp only [resolveUpdates, h, if_pos hc] at hok
        exact Except.noConfusion hok
      · simp only [resolveUpdates, h, if_neg hc] at hok
        rcases List.mem_cons.mp hq with rfl | hq'
        · exact ⟨captured, h, hc⟩
        · cases hr : (resolveUpdates env packId rest).2 with
          | error e => rw [hr] at hok; simp [Except.map] at hok
          | ok us' => exact ih us' hr q hq'

/-- On the success path (pack generated, upload accepted with a truthy
pack id, every resolution usable), `handlePushSelfPack` runs the four
external steps in order and its result is the outcome of the combined
`updateRefs` call. -/
theorem handlePush_trace (env : Env) (ps : List PendingPush)
    (buf : String) (resp : UploadResp) (packId : String)
    (h1 : env.packObjects = .ok buf)
    (h2 : env.uploadPack buf = .ok resp)
    (h3 : truthy resp.packId = some packId)
    (h4 : ∀ p ∈ ps, resolvesOk env p) :
    handlePushSelfPack env ps =
      (Event.gitRun ["pack-objects", "--stdout", "--all"] ::
        Event.httpReq "POST" .packsUpload ::
          ps.map (fun p => .gitRun ["rev-parse", p.src]) ++
            [Event.httpReq "POST" (.updateRefs (ps.map (mkUpdate env packId)))],
        env.updateRefs (ps.map (mkUpdate env packId))) := by
  have hr := resolveUpdates_ok env packId ps h4
  cases hu : env.updateRefs (ps.map (mkUpdate env packId)) with
  | error e => simp only [handlePushSelfPack, h1, h2, h3, hr, hu]
  | ok u => simp only [handlePushSelfPack, h1, h2, h3, hr, hu]

theorem handlePush_no_out (env : Env) (ps : List PendingPush) :
    outLines (handlePushSelfPack env ps).1 = [] := by
  cases h1 : env.packObjects with
  | error e => simp [handlePush_packObjects_err env ps e h1, outLines]
  | ok buf =>
    cases h2 : env.uploadPack buf with
    | error e => simp [handlePush_upload_err env ps buf e h1 h2, outLines]
    | ok resp =>
      cases h3 : truthy resp.packId with
      | none => simp [handlePush_no_packId env ps buf resp h1 h2 h3, outLines]
      | some packId =>
        cases h4 : (resolveUpdates env packId ps).2 with
        | error e =>
          rw [handlePush_resolve_err env ps buf resp packId e h1 h2 h3 h4]
          simp only [outLines, List.filterMap_cons]
          exact resolveUpdates_no_out env packId ps
        | ok us =>
          have hall := resolveUpdates_ok_inv env packId ps us h4
          rw [handlePush_trace env ps buf resp packId h1 h2 h3 hall]
          simp only [outLines, List.filterMap_cons, List.filterMap_append]
          have h := resolveUpdates_no_out env packId ps
          rw [resolveUpdates_ok env packId ps hall] at h
          simp only [outLines] at h
          simp [h]

theorem truthy_some (o : Option String) (p : String) (h : truthy o = some p) :
    o = some p := by
  cases o with
  | none => simp [truthy] at h
  | some s =>
    by_cases hs : s = ""
    · simp [truthy, hs] at h
    · simp only [truthy, if_neg hs] at h
      exact h

theorem mapGet_mem (m : List (String × String)) (k v : String)
    (h : mapGet m k = some v) : (k, v) ∈ m := by
  simp only [mapGet] at h
  obtain ⟨e, he, hev⟩ := Option.map_eq_some'.mp h
  have hbeq := List.find?_some he
  have hk : e.1 = k := eq_of_beq hbeq
  have : (k, v) = e := by rw [← hk, ← hev]
  rw [this]
  exact List.mem_of_find?_eq_some he

theorem catalog_mem (refs : List RefEntry) :
    ∀ (m₀ : List (String × String)) (kv : String × String),
      kv ∈ refs.foldl catalogStep m₀ →
        kv ∈ m₀ ∨ ∃ r ∈ refs, r.name = kv.1 ∧ truthy r.packId = some kv.2 := by
  induction refs with
  | nil => intro m₀ kv h; exact Or.inl h
  | cons r rs ih =>
    intro m₀ kv h
    rw [List.foldl_cons] at h
    rcases ih (catalogStep m₀ r) kv h with hm | ⟨r', hr', hn, hp⟩
    · cases ht : truthy r.packId with
      | none =>
        rw [catalogStep, ht] at hm
        exact Or.inl hm
      | some p =>
        rw [catalogStep, ht] at hm
        rcases List.mem_append.mp hm with hf | hs
        · exact Or.inl (List.mem_of_mem_filter hf)
        · simp only [List.mem_singleton] at hs
          refine Or.inr ⟨r, List.mem_cons_self r rs, ?_, ?_⟩
          · rw [hs]
          · rw [hs, ht]
    · exact Or.inr ⟨r', List.mem_cons_of_mem r hr', hn, hp⟩

/-- C8: every `list` refresh replaces the Ref Catalog snapshot wholesale:
after a successful `list` the new `refToPackId` does not depend on the
previous snapshot at all (clearing first), and every entry it contains
comes from a ref of the latest remote response, so a stale entry for a
ref deleted upstream never lingers across refreshes. -/
theorem c8_list_replaces_snapshot (env : Env) (st st' : HelperState)
    (refs : List RefEntry) (h : env.refsResp = .ok refs) :
    (handleList env st).1.refToPackId = (handleList env st').1.refToPackId ∧
      ∀ n p, mapGet (handleList env st).1.refToPackId n = some p →
        ∃ r ∈ refs, r.name = n ∧ r.packId = some p := by
  constructor
  · simp only [handleList, h]
  · intro n p hget
    simp only [handleList, h] at hget
    have hmem := mapGet_mem _ n p hget
    rcases catalog_mem refs [] (n, p) hmem with hnil | ⟨r, hr, hn, hp⟩
    · simp at hnil
    · exact ⟨r, hr, hn, truthy_some _ _ hp⟩

/-- C8 witness: with the remote listing exactly one ref
`refs/heads/main → pack p1`, the refreshed catalog is the same whatever
the previous snapshot was, and its one entry comes from the response. -/
theorem c8_list_replaces_snapshot_witness :
    (handleList envAllOk
        ⟨[("refs/heads/stale", "p0")], [], false⟩).1.refToPackId =
      (handleList envAllOk initState).1.refToPackId ∧
      ∃ r ∈ [(⟨"refs/heads/main", "aaa", some "p1"⟩ : RefEntry)],
        r.name = "refs/heads/main" ∧ r.packId = some "p1" :=
  ⟨(c8_list_replaces_snapshot envAllOk
      ⟨[("refs/heads/stale", "p0")], [], false⟩ initState
      [⟨"refs/heads/main", "aaa", some "p1"⟩] rfl).1,
    (c8_list_replaces_snapshot envAllOk
      ⟨[("refs/heads/stale", "p0")], [], false⟩ initState
      [⟨"refs/heads/main", "aaa", some "p1"⟩] rfl).2
      "refs/heads/main" "p1" (by decide)⟩

/-- C9: processing a push batch's blank-line terminator always leaves
`pendingPushes` empty — on success and on failure alike (the clearing sits
in the `finally` of the terminator handler) — so a later batch never
re-reports earlier pushes. -/
theorem c9_pendingPushes_cleared (env : Env) (st : HelperState)
    (h : st.readingPushBatch = true) :
    ((step env st "").1).pendingPushes = [] := by
  have hs : step env st "" = stepBlank env st := rfl
  rw [hs]
  simp only [stepBlank, h, if_true]
  cases hr : (handlePushSelfPack env st.pendingPushes).2 with
  | error e => simp only [hr]
  | ok u => simp only [hr]

/-- C9 witness: a concrete one-push batch whose terminator has just been
processed has an empty pending-push list. -/
theorem c9_pendingPushes_cleared_witness :
    ((step envAllOk
        ⟨[], [⟨"refs/heads/main", some "refs/heads/main"⟩], true⟩ "").1
      ).pendingPushes = [] :=
  c9_pendingPushes_cleared envAllOk
    ⟨[], [⟨"refs/heads/main", some "refs/heads/main"⟩], true⟩ rfl

/-- C10: a blank input line received while no push batch is in progress
(`readingPushBatch = false`, i.e. no `push` line since the last batch
terminator) produces no output and leaves the whole session state — the
ref-to-pack catalog and the pending-push list — unchanged. -/
theorem c10_blank_line_noop (env : Env) (st : HelperState)
    (h : st.readingPushBatch = false) :
    step env st "" = (st, []) := by
  have hs : step env st "" = stepBlank env st := rfl
  rw [hs]
  simp [stepBlank, h]

/-- C10 witness: a blank line at process start (no batch in progress)
changes nothing and prints nothing. -/
theorem c10_blank_line_noop_witness :
    step envAllOk initState "" = (initState, []) :=
  c10_blank_line_noop envAllOk initState rfl

theorem outLines_map_outLine {α : Type} (f : α → String) (l : List α) :
    outLines (l.map (fun p => Event.outLine (f p))) = l.map f := by
  induction l with
  | nil => rfl
  | cons p rest ih =>
    simp only [outLines, List.map_cons, List.filterMap_cons] at ih ⊢
    rw [ih]

theorem outLines_errLine_cons (s : String) (tr : List Event) :
    outLines (.errLine s :: tr) = outLines tr := by
  simp [outLines, List.filterMap_cons]

theorem stepBlank_out_ok (env : Env) (st : HelperState)
    (h : st.readingPushBatch = true) (u : Unit)
    (hr : (handlePushSelfPack env st.pendingPushes).2 = .ok u) :
    outLines (stepBlank env st).2 =
      st.pendingPushes.map okLine ++ [""] := by
  simp only [stepBlank, h, if_true, hr]
  rw [outLines_append, outLines_append, handlePush_no_out,
    outLines_map_outLine]
  rfl

theorem stepBlank_out_err (env : Env) (st : HelperState)
    (h : st.readingPushBatch = true) (e : String)
    (hr : (handlePushSelfPack env st.pendingPushes).2 = .error e) :
    outLines (stepBlank env st).2 =
      st.pendingPushes.map (errorLine e) ++ [""] := by
  simp only [stepBlank, h, if_true, hr]
  rw [outLines_append, outLines_append, handlePush_no_out,
    outLines_errLine_cons, outLines_map_outLine]
  rfl

/-- C2: a push batch of N queued pushes, terminated by a blank line, emits
exactly N status lines — each either `ok <dst>` or `error <dst> "<msg>"` —
one per queued push, in the order the `push` lines were received, followed
by a terminating blank line, in every success/failure outcome of the
batch. -/
theorem c2_batch_status_lines (env : Env) (st : HelperState)
    (h : st.readingPushBatch = true) :
    (outLines (step env st "").2).length = st.pendingPushes.length + 1 ∧
      (outLines (step env st "").2).getLast? = some "" ∧
      ∀ (i : Nat) (p : PendingPush), st.pendingPushes[i]? = some p →
        (outLines (step env st "").2)[i]? = some ("ok " ++ dstStr p) ∨
          ∃ m, (outLines (step env st "").2)[i]? =
            some ("error " ++ dstStr p ++ " \"" ++ m ++ "\"") := by
  have hs : step env st "" = stepBlank env st := rfl
  rw [hs]
  cases hr : (handlePushSelfPack env st.pendingPushes).2 with
  | ok u =>
    have ho := stepBlank_out_ok env st h u hr
    refine ⟨?_, ?_, ?_⟩
    · simp [ho]
    · rw [ho]; exact List.getLast?_concat _
    · intro i p hp
      left
      obtain ⟨hlt, _⟩ := List.getElem?_eq_some.mp hp
      rw [ho, List.getElem?_append_left, List.getElem?_map, hp]
      · rfl
      · simpa using hlt
  | error e =>
    have ho := stepBlank_out_err env st h e hr
    refine ⟨?_, ?_, ?_⟩
    · simp [ho]
    · rw [ho]; exact List.getLast?_concat _
    · intro i p hp
      right
      refine ⟨escapeMsg e, ?_⟩
      obtain ⟨hlt, _⟩ := List.getElem?_eq_some.mp hp
      rw [ho, List.getElem?_append_left, List.getElem?_map, hp]
      · rfl
      · simpa using hlt

/-- C2 witness: a concrete two-push batch emits exactly 2 + 1 lines, ends
with the blank terminator, and its first status line reports the first
queued destination. -/
theorem c2_batch_status_lines_witness :
    (outLines (step envAllOk
        ⟨[], [⟨"refs/heads/main", some "refs/heads/main"⟩,
              ⟨"refs/heads/dev", some "refs/heads/dev"⟩], true⟩ "").2).length =
      3 ∧
      ((outLines (step envAllOk
          ⟨[], [⟨"refs/heads/main", some "refs/heads/main"⟩,
                ⟨"refs/heads/dev", some "refs/heads/dev"⟩], true⟩ "").2)[0]? =
        some ("ok " ++ dstStr ⟨"refs/heads/main", some "refs/heads/main"⟩) ∨
        ∃ m, (outLines (step envAllOk
            ⟨[], [⟨"refs/heads/main", some "refs/heads/main"⟩,
                  ⟨"refs/heads/dev", some "refs/heads/dev"⟩], true⟩ "").2)[0]? =
          some ("error " ++ dstStr ⟨"refs/heads/main", some "refs/heads/main"⟩ ++
            " \"" ++ m ++ "\"")) :=
  ⟨(c2_batch_status_lines envAllOk
      ⟨[], [⟨"refs/heads/main", some "refs/heads/main"⟩,
            ⟨"refs/heads/dev", some "refs/heads/dev"⟩], true⟩ rfl).1,
    (c2_batch_status_lines envAllOk
      ⟨[], [⟨"refs/heads/main", some "refs/heads/main"⟩,
            ⟨"refs/heads/dev", some "refs/heads/dev"⟩], true⟩ rfl).2.2 0
      ⟨"refs/heads/main", some "refs/heads/main"⟩ (by decide)⟩

theorem updatePayloads_gitRun_map (ps : List PendingPush) :
    updatePayloads (ps.map (fun p => Event.gitRun ["rev-parse", p.src])) = [] := by
  induction ps with
  | nil => rfl
  | cons p rest ih =>
    simp only [updatePayloads, List.map_cons, List.filterMap_cons] at ih ⊢
    exact ih

/-- C1 counterexample: the claim says each `updateRefs` entry carries the
last known remote tip as its CAS guard and that a stale ref's rejection
leaves other refs of the batch unaffected.  In a run where `list` just
reported tip `aaa` for `refs/heads/main`, the update entry for a push of
that ref carries `oldOid = ""` — not `"aaa"` — and when the remote rejects
the combined request, every ref of the batch is reported as `error`, not
only the stale one. -/
theorem c1_counterexample_oldOid_empty :
    envAllOk.refsResp = .ok [⟨"refs/heads/main", "aaa", some "p1"⟩] ∧
      updatePayloads (runLines envAllOk initState
          ["list", "push refs/heads/main:refs/heads/main", ""]).2 =
        [[⟨some "refs/heads/main", "", "bbb", "p9"⟩]] ∧
      ("" : String) ≠ "aaa" ∧
      outLines (runLines envUpdateRejected initState
          ["push a:refs/heads/a", "push b:refs/heads/b", ""]).2 =
        ["error refs/heads/a \"HTTP 409 POST updateRefs\"",
          "error refs/heads/b \"HTTP 409 POST updateRefs\"", ""] :=
  ⟨rfl, by decide, by decide, by decide⟩

/-- C1 (amended): the combined `updateRefs` request contains exactly one
update entry per pending push, in batch order, but every entry carries
`oldOid = ""` (an unconditional update: the recorded remote tip is never
used as a CAS guard), and when the remote rejects the combined request the
helper reports an `error` line for every ref of the batch, not only the
stale one. -/
theorem c1_updateRefs_no_cas_guard (env : Env) (ps : List PendingPush)
    (buf : String) (resp : UploadResp) (packId : String)
    (h1 : env.packObjects = .ok buf)
    (h2 : env.uploadPack buf = .ok resp)
    (h3 : truthy resp.packId = some packId)
    (h4 : ∀ p ∈ ps, resolvesOk env p) :
    updatePayloads (handlePushSelfPack env ps).1 =
        [ps.map (mkUpdate env packId)] ∧
      (ps.map (mkUpdate env packId)).map (fun u => u.name) =
        ps.map (fun p => p.dst) ∧
      (∀ u ∈ ps.map (mkUpdate env packId), u.oldOid = "") ∧
      ∀ (m : List (String × String)) (e : String),
        env.updateRefs (ps.map (mkUpdate env packId)) = .error e →
          outLines (stepBlank env ⟨m, ps, true⟩).2 =
            ps.map (errorLine e) ++ [""] := by
  have htr := handlePush_trace env ps buf resp packId h1 h2 h3 h4
  refine ⟨?_, ?_, ?_, ?_⟩
  · rw [htr]
    simp only [updatePayloads, List.filterMap_cons, List.filterMap_append]
    have hg := updatePayloads_gitRun_map ps
    simp only [updatePayloads] at hg
    rw [hg]
    rfl
  · rw [List.map_map]
    rfl
  · intro u hu
    obtain ⟨p, hp, rfl⟩ := List.mem_map.mp hu
    rfl
  · intro m e he
    have hr : (handlePushSelfPack env ps).2 = .error e := by
      rw [htr]; exact he
    exact stepBlank_out_err env ⟨m, ps, true⟩ rfl e hr

/-- C1 witness: a concrete successful one-push batch submits exactly one
combined request, with the expected single entry. -/
theorem c1_updateRefs_no_cas_guard_witness :
    updatePayloads (handlePushSelfPack envAllOk
        [⟨"refs/heads/main", some "refs/heads/main"⟩]).1 =
      [[⟨some "refs/heads/main", "", "bbb", "p9"⟩]] := by
  have h := (c1_updateRefs_no_cas_guard envAllOk
    [⟨"refs/heads/main", some "refs/heads/main"⟩]
    "PACKDATA" ⟨some "p9", "json packId p9"⟩ "p9" rfl rfl rfl
    (by
      intro p hp
      rw [List.mem_singleton] at hp
      subst hp
      exact ⟨"bbb\n", rfl, by decide⟩)).1
  exact h.trans (by decide)

/-- C4 counterexample: the claim says a failing local resolution prevents
any network I/O.  With `git rev-parse` failing, the batch indeed aborts
with that error — but the pack upload request has already been sent. -/
theorem c4_counterexample_upload_before_resolve :
    Event.httpReq "POST" Request.packsUpload ∈
        (handlePushSelfPack envRevFail
          [⟨"refs/heads/main", some "refs/heads/main"⟩]).1 ∧
      (handlePushSelfPack envRevFail
          [⟨"refs/heads/main", some "refs/heads/main"⟩]).2 =
        .error "git rev-parse exited 128" := by
  refine ⟨by decide, rfl⟩

/-- C4 (amended): a failing local resolution aborts the batch before the
combined `updateRefs` request is ever sent — but not before the pack
upload: the full self-generated pack is uploaded first (whenever pack
generation succeeded), and only then are the pending pushes resolved. -/
theorem c4_resolve_failure_no_updateRefs (env : Env) (ps : List PendingPush)
    (buf : String) (h1 : env.packObjects = .ok buf) :
    Event.httpReq "POST" Request.packsUpload ∈ (handlePushSelfPack env ps).1 ∧
      ((∃ p ∈ ps, ¬ resolvesOk env p) →
        ∀ e ∈ (handlePushSelfPack env ps).1, isUpdateReq e = false) := by
  constructor
  · cases h2 : env.uploadPack buf with
    | error e =>
      rw [handlePush_upload_err env ps buf e h1 h2]
      simp
    | ok resp =>
      cases h3 : truthy resp.packId with
      | none =>
        rw [handlePush_no_packId env ps buf resp h1 h2 h3]
        simp
      | some packId =>
        cases h4 : (resolveUpdates env packId ps).2 with
        | error e =>
          rw [handlePush_resolve_err env ps buf resp packId e h1 h2 h3 h4]
          simp
        | ok us =>
          have hall := resolveUpdates_ok_inv env packId ps us h4
          rw [handlePush_trace env ps buf resp packId h1 h2 h3 hall]
          simp
  · rintro ⟨p, hp, hbad⟩ ev hev
    cases h2 : env.uploadPack buf with
    | error e =>
      rw [handlePush_upload_err env ps buf e h1 h2] at hev
      rcases List.mem_cons.mp hev with rfl | hev'
      · rfl
      rcases List.mem_cons.mp hev' with rfl | h
      · rfl
      · simp at h
    | ok resp =>
      cases h3 : truthy resp.packId with
      | none =>
        rw [handlePush_no_packId env ps buf resp h1 h2 h3] at hev
        rcases List.mem_cons.mp hev with rfl | hev'
        · rfl
        rcases List.mem_cons.mp hev' with rfl | h
        · rfl
        · simp at h
      | some packId =>
        cases h4 : (resolveUpdates env packId ps).2 with
        | error e =>
          rw [handlePush_resolve_err env ps buf resp packId e h1 h2 h3 h4] at hev
          rcases List.mem_cons.mp hev with rfl | hev'
          · rfl
          rcases List.mem_cons.mp hev' with rfl | hev''
          · rfl
          obtain ⟨s, rfl⟩ := resolveUpdates_events env packId ps ev hev''
          rfl
        | ok us =>
          exact absurd (resolveUpdates_ok_inv env packId ps us h4 p hp) hbad

/-- C4 witness: in the concrete failing-resolution run, the upload request
is in the trace and no `updateRefs` request is. -/
theorem c4_resolve_failure_no_updateRefs_witness :
    Event.httpReq "POST" Request.packsUpload ∈
        (handlePushSelfPack envRevFail
          [⟨"refs/heads/main", some "refs/heads/main"⟩]).1 ∧
      ∀ e ∈ (handlePushSelfPack envRevFail
          [⟨"refs/heads/main", some "refs/heads/main"⟩]).1,
        isUpdateReq e = false := by
  have hbad : ¬ resolvesOk envRevFail
      ⟨"refs/heads/main", some "refs/heads/main"⟩ := by
    rintro ⟨s, hs, -⟩
    exact Except.noConfusion hs
  refine ⟨(c4_resolve_failure_no_updateRefs envRevFail _ "PACKDATA" rfl).1,
    (c4_resolve_failure_no_updateRefs envRevFail _ "PACKDATA" rfl).2
      ⟨⟨"refs/heads/main", some "refs/heads/main"⟩, List.mem_singleton.mpr rfl,
        hbad⟩⟩

/-- C3: the spec requires the blank terminator of a `fetch` command to be
emitted even when handling fails, so the VCS tool never hangs.  The code
violates this: there is no `try`/`finally` around `handleFetch`, so a
transport error while downloading the pack, or a nonzero exit of
`git index-pack`, escapes the dispatcher and the command produces no
output at all — no `lock` line and, crucially, no blank terminator (the
third conjunct shows the success path for contrast). -/
theorem c3_fetch_failure_no_terminator :
    outLines (step envFetchFail ⟨[("refs/heads/main", "p1")], [], false⟩
        "fetch aaa refs/heads/main").2 = [] ∧
      outLines (step envImportFail ⟨[("refs/heads/main", "p1")], [], false⟩
        "fetch aaa refs/heads/main").2 = [] ∧
      outLines (step envAllOk ⟨[("refs/heads/main", "p1")], [], false⟩
        "fetch aaa refs/heads/main").2 =
        ["lock .git/objects/pack/min-helper-6.keep", ""] :=
  ⟨by decide, by decide, by decide⟩

/-- C5 counterexample: the claim says every fetch first queries the remote
for the pack set covering history between the negotiated base and the
target (with a surfaced `BaseNotFound` on rejection).  On a concrete fetch
the one and only remote request is the download of the pack recorded at
the last `list` — no delta/base query is ever issued. -/
theorem c5_counterexample_no_delta_query :
    httpReqs (handleFetch envAllOk [("refs/heads/main", "p1")]
        "refs/heads/main") = [("GET", Request.pack "p1")] ∧
      (handleFetch envAllOk [("refs/heads/main", "p1")]
        "refs/heads/main").any isDeltaReq = false :=
  ⟨by decide, by decide⟩

/-- C5 (amended): every HTTP request a fetch issues is a `GET` download of
exactly the pack recorded for the ref in the catalog; the helper performs
no base negotiation and no `BaseNotFound` condition exists. -/
theorem c5_fetch_requests_only_recorded_pack (env : Env)
    (m : List (String × String)) (r meth : String) (q : Request)
    (hmem : Event.httpReq meth q ∈ handleFetch env m r) :
    meth = "GET" ∧ ∃ pid, truthy (mapGet m r) = some pid ∧ q = .pack pid := by
  cases ht : truthy (mapGet m r) with
  | none =>
    simp only [handleFetch, ht] at hmem
    simp at hmem
  | some pid =>
    simp only [handleFetch, ht] at hmem
    rcases List.mem_cons.mp hmem with heq | hrest
    · obtain ⟨hm, hq⟩ := Event.httpReq.inj heq
      exact ⟨hm, pid, rfl, hq⟩
    · exfalso
      cases hb : env.packBytes pid with
      | error e => rw [hb] at hrest; simp at hrest
      | ok buf =>
        rw [hb] at hrest
        cases hd : env.packDirExists with
        | true =>
          rw [hd] at hrest
          cases hi : env.indexPack (tmpPackPath env) with
          | error e => rw [hi] at hrest; simp at hrest
          | ok u => rw [hi] at hrest; simp at hrest
        | false =>
          rw [hd] at hrest
          cases hi : env.indexPack (tmpPackPath env) with
          | error e => rw [hi] at hrest; simp at hrest
          | ok u => rw [hi] at hrest; simp at hrest

/-- C5 witness: the pack request of a concrete fetch is classified by the
amended theorem as the download of the recorded pack. -/
theorem c5_fetch_requests_only_recorded_pack_witness :
    "GET" = "GET" ∧
      ∃ pid, truthy (mapGet [("refs/heads/main", "p1")] "refs/heads/main") =
          some pid ∧ Request.pack "p1" = Request.pack pid :=
  c5_fetch_requests_only_recorded_pack envAllOk [("refs/heads/main", "p1")]
    "refs/heads/main" "GET" (Request.pack "p1") (by decide)

/-- C6 counterexample: the claim says a fetch of a ref already at the
locally-known tip performs zero pack downloads.  The code never consults
the local tip: in an up-to-date scenario where the catalog still records a
pack for the ref, the fetch downloads that pack anyway. -/
theorem c6_counterexample_up_to_date_still_downloads :
    upToDate ⟨some "aaa", "aaa"⟩ ∧
      packDownloads (handleFetch envAllOk [("refs/heads/main", "p1")]
        "refs/heads/main") = 1 :=
  ⟨rfl, by decide⟩

/-- C6 (amended): a fetch performs zero pack downloads exactly when the
catalog records no (truthy) pack id for the ref — in which case it
immediately reports success with only the blank terminator; whenever a
pack id is recorded, the fetch requests that one pack download,
independently of whether the ref is already up to date locally. -/
theorem c6_download_iff_packId (env : Env) (m : List (String × String))
    (r : String) :
    (truthy (mapGet m r) = none → handleFetch env m r = [.outLine ""]) ∧
      ∀ pid, truthy (mapGet m r) = some pid →
        packDownloads (handleFetch env m r) = 1 := by
  constructor
  · intro h
    simp only [handleFetch, h]
  · intro pid h
    simp only [handleFetch, h]
    cases hb : env.packBytes pid with
    | error e => simp [packDownloads, isPackDownload]
    | ok buf =>
      cases hd : env.packDirExists with
      | true =>
        cases hi : env.indexPack (tmpPackPath env) with
        | error e => simp [packDownloads, isPackDownload]
        | ok u => simp [packDownloads, isPackDownload]
      | false =>
        cases hi : env.indexPack (tmpPackPath env) with
        | error e => simp [packDownloads, isPackDownload]
        | ok u => simp [packDownloads, isPackDownload]

/-- C6 witness: with no pack recorded the fetch outputs only the blank
terminator; with pack `p1` recorded it performs exactly one download. -/
theorem c6_download_iff_packId_witness :
    handleFetch envAllOk [] "refs/heads/main" = [.outLine ""] ∧
      packDownloads (handleFetch envAllOk [("refs/heads/main", "p1")]
        "refs/heads/main") = 1 :=
  ⟨(c6_download_iff_packId envAllOk [] "refs/heads/main").1 rfl,
    (c6_download_iff_packId envAllOk [("refs/heads/main", "p1")]
      "refs/heads/main").2 "p1" rfl⟩

theorem lockLines_lock_cons (k : String) (tr : List Event) :
    lockLines (.outLine ("lock " ++ k) :: tr) = k :: lockLines tr := by
  simp only [lockLines, List.filterMap_cons, String.data_append]
  rw [show (5 : Nat) = "lock ".data.length from rfl, List.take_left,
    List.drop_left, if_pos rfl]

theorem lockLines_blank_cons (tr : List Event) :
    lockLines (.outLine "" :: tr) = lockLines tr := by
  simp only [lockLines, List.filterMap_cons]
  rw [if_neg (by decide)]

theorem lockLines_httpReq_cons (meth : String) (q : Request) (tr : List Event) :
    lockLines (.httpReq meth q :: tr) = lockLines tr := by
  simp [lockLines, List.filterMap_cons]

theorem lockLines_gitRun_cons (args : List String) (tr : List Event) :
    lockLines (.gitRun args :: tr) = lockLines tr := by
  simp [lockLines, List.filterMap_cons]

theorem lockLines_fsWrite_cons (p : String) (tr : List Event) :
    lockLines (.fsWrite p :: tr) = lockLines tr := by
  simp [lockLines, List.filterMap_cons]

theorem lockLines_mkdir_cons (p : String) (tr : List Event) :
    lockLines (.mkdir p :: tr) = lockLines tr := by
  simp [lockLines, List.filterMap_cons]

/-- C7 counterexample: the claim says every fetch that downloads at least
one pack emits a `lock <path>` line before the blank terminator.  When the
pack download succeeds but the `git index-pack` import then fails, the
exception escapes before the keep marker is written: a pack was downloaded
yet no `lock` line (indeed no output at all) is emitted. -/
theorem c7_counterexample_import_failure_no_lock :
    fetchDownloadOk envImportFail [("refs/heads/main", "p1")]
        "refs/heads/main" = true ∧
      lockLines (handleFetch envImportFail [("refs/heads/main", "p1")]
        "refs/heads/main") = [] ∧
      outLines (handleFetch envImportFail [("refs/heads/main", "p1")]
        "refs/heads/main") = [] :=
  ⟨by decide, by decide, by decide⟩

/-- C7 (amended): a fetch that downloads a pack and whose import succeeds
emits exactly one `lock <path>` line, naming the keep marker written to
disk immediately before the line is emitted, followed by the blank
terminator; a fetch that downloads zero packs (no recorded pack id) emits
no `lock` line; and a fetch whose import fails after the download also
emits no `lock` line. -/
theorem c7_lock_emission (env : Env) (m : List (String × String))
    (r : String) :
    (∀ pid buf, truthy (mapGet m r) = some pid →
      env.packBytes pid = .ok buf →
      env.indexPack (tmpPackPath env) = .ok () →
      ∃ pre, handleFetch env m r = pre ++
          [.fsWrite (keepPath env), .outLine ("lock " ++ keepPath env),
            .outLine ""] ∧
        outLines pre = [] ∧
        lockLines (handleFetch env m r) = [keepPath env]) ∧
      (truthy (mapGet m r) = none → lockLines (handleFetch env m r) = []) ∧
      ∀ pid e, truthy (mapGet m r) = some pid →
        env.indexPack (tmpPackPath env) = .error e →
        lockLines (handleFetch env m r) = [] := by
  refine ⟨?_, ?_, ?_⟩
  · intro pid buf ht hb hi
    cases hd : env.packDirExists with
    | true =>
      have htr : handleFetch env m r =
          [Event.httpReq "GET" (.pack pid), .fsWrite (tmpPackPath env),
            .gitRun ["index-pack", "--keep", "-v", tmpPackPath env]] ++
            [.fsWrite (keepPath env), .outLine ("lock " ++ keepPath env),
              .outLine ""] := by
        simp only [handleFetch, ht, hb, hi, hd]
        rfl
      refine ⟨_, htr, by simp [outLines], ?_⟩
      rw [htr]
      simp only [List.cons_append, List.nil_append]
      rw [lockLines_httpReq_cons, lockLines_fsWrite_cons,
        lockLines_gitRun_cons, lockLines_fsWrite_cons,
        lockLines_lock_cons, lockLines_blank_cons]
      rfl
    | false =>
      have htr : handleFetch env m r =
          [Event.httpReq "GET" (.pack pid), .mkdir (packDir env),
            .fsWrite (tmpPackPath env),
            .gitRun ["index-pack", "--keep", "-v", tmpPackPath env]] ++
            [.fsWrite (keepPath env), .outLine ("lock " ++ keepPath env),
              .outLine ""] := by
        simp only [handleFetch, ht, hb, hi, hd]
        rfl
      refine ⟨_, htr, by simp [outLines], ?_⟩
      rw [htr]
      simp only [List.cons_append, List.nil_append]
      rw [lockLines_httpReq_cons, lockLines_mkdir_cons,
        lockLines_fsWrite_cons, lockLines_gitRun_cons,
        lockLines_fsWrite_cons, lockLines_lock_cons,
        lockLines_blank_cons]
      rfl
  · intro ht
    simp only [handleFetch, ht]
    rw [lockLines_blank_cons]
    rfl
  · intro pid e ht hi
    cases hb : env.packBytes pid with
    | error msg =>
      simp only [handleFetch, ht, hb]
      rw [lockLines_httpReq_cons]
      rfl
    | ok buf =>
      cases hd : env.packDirExists with
      | true =>
        have htr : handleFetch env m r =
            [Event.httpReq "GET" (.pack pid), .fsWrite (tmpPackPath env),
              .gitRun ["index-pack", "--keep", "-v", tmpPackPath env]] := by
          simp only [handleFetch, ht, hb, hi, hd]
          rfl
        rw [htr, lockLines_httpReq_cons, lockLines_fsWrite_cons,
          lockLines_gitRun_cons]
        rfl
      | false =>
        have htr : handleFetch env m r =
            [Event.httpReq "GET" (.pack pid), .mkdir (packDir env),
              .fsWrite (tmpPackPath env),
              .gitRun ["index-pack", "--keep", "-v", tmpPackPath env]] := by
          simp only [handleFetch, ht, hb, hi, hd]
          rfl
        rw [htr, lockLines_httpReq_cons, lockLines_mkdir_cons,
          lockLines_fsWrite_cons, lockLines_gitRun_cons]
        rfl

/-- C7 witness: the concrete all-success fetch emits exactly one `lock`
line naming the keep marker written just before it, and the concrete
import-failure fetch emits none. -/
theorem c7_lock_emission_witness :
    (∃ pre, handleFetch envAllOk [("refs/heads/main", "p1")]
          "refs/heads/main" = pre ++
          [.fsWrite (keepPath envAllOk),
            .outLine ("lock " ++ keepPath envAllOk), .outLine ""] ∧
        outLines pre = [] ∧
        lockLines (handleFetch envAllOk [("refs/heads/main", "p1")]
          "refs/heads/main") = [keepPath envAllOk]) ∧
      lockLines (handleFetch envImportFail [("refs/heads/main", "p1")]
        "refs/heads/main") = [] :=
  ⟨(c7_lock_emission envAllOk [("refs/heads/main", "p1")]
      "refs/heads/main").1 "p1" "PACKBYTES" rfl rfl rfl,
    (c7_lock_emission envImportFail [("refs/heads/main", "p1")]
      "refs/heads/main").2.2 "p1" "git index-pack exited 128" rfl rfl⟩

end GitRemoteMin
